import Mathlib

/-!
Shallow embedding of the in-memory search engine (src/app.py and
src/main.py): documents, the inverted index, datasets, the key-based
sort strategy and the `SearchEngine` facade, together with proofs of the
functional-correctness, invariant and error-handling properties.

Python dictionaries are modelled as association lists (`alookup` /
`aset` mirror `d[k]` reads and writes: a write replaces the value in
place when the key is present and appends at the end otherwise, matching
insertion-ordered `dict`).  Python `set`s of small document ids are
modelled as strictly ascending duplicate-free lists, matching the
iteration order CPython exhibits for sets of small integers.  Stateful
methods are modelled by explicit state passing: a method that can raise
returns the (possibly updated) state paired with an `Except` outcome.
-/

namespace SearchSpec

/-- First-match lookup in an association list (`d.get(k)` / `d[k]`). -/
def alookup {α β : Type} [DecidableEq α] (k : α) : List (α × β) → Option β
  | [] => none
  | (k2, v) :: rest => if k2 = k then some v else alookup k rest

/-- Insertion-ordered store (`d[k] = v`): replace the first binding of `k`
in place, or append a fresh binding at the end. -/
def aset {α β : Type} [DecidableEq α] (k : α) (v : β) : List (α × β) → List (α × β)
  | [] => [(k, v)]
  | (k2, v2) :: rest => if k2 = k then (k, v) :: rest else (k2, v2) :: aset k v rest

/-- Python `str.lower()` (per-character, basic-latin, as in the source's
case normalisation). -/
def pyLower (s : String) : String := String.mk (s.data.map Char.toLower)

/-- Splitter for `str.split()` with no argument: walk the characters,
accumulating the current token (reversed) and emitting it at each
whitespace run, so empty pieces never appear. -/
def tokenizeAux : List Char → List Char → List (List Char)
  | [], acc => if acc.isEmpty then [] else [acc.reverse]
  | c :: rest, acc =>
    if c.isWhitespace then
      if acc.isEmpty then tokenizeAux rest []
      else acc.reverse :: tokenizeAux rest []
    else tokenizeAux rest (c :: acc)

/-- Python `str.split()` with no argument: split on whitespace runs,
discarding empty pieces. -/
def pySplit (s : String) : List String :=
  (tokenizeAux s.data []).map (fun cs => String.mk cs)

/-- The tokenisation used both at indexing and at query time:
`content.lower().split()`. -/
def pyTokens (s : String) : List String := pySplit (pyLower s)

/-- `Document` (src/app.py lines 8-15): id, content stored lowercased,
and a string-to-string metadata map. -/
structure Document where
  doc_id : Nat
  content : String
  meta_data : List (String × String)
deriving Repr, DecidableEq

/-- `Document.__init__`: the constructor lowercases the raw content. -/
def Document.make (doc_id : Nat) (content : String)
    (metaData : List (String × String)) : Document :=
  ⟨doc_id, pyLower content, metaData⟩

/-- `Document.get_key_value`: metadata lookup defaulting to `""`. -/
def Document.get_key_value (d : Document) (key : String) : String :=
  (alookup key d.meta_data).getD ""

/-- `InvertedIndex` (src/app.py lines 18-35): term → posting set. -/
structure InvertedIndex where
  index : List (String × List Nat)
deriving Repr, DecidableEq

def InvertedIndex.empty : InvertedIndex := ⟨[]⟩

/-- `set.add(doc_id)` on a posting set kept as a strictly ascending list. -/
def insertPosting (i : Nat) : List Nat → List Nat
  | [] => [i]
  | x :: xs =>
    if i < x then i :: x :: xs
    else if i = x then x :: xs
    else x :: insertPosting i xs

/-- `self.index.get(word, set())`: the posting set of a term, empty when
the term is unindexed. -/
def postingOf (idx : InvertedIndex) (w : String) : List Nat :=
  (alookup w idx.index).getD []

/-- One iteration of the loop body of `InvertedIndex.addDocument`:
create the posting set if absent, then add the id to it. -/
def addWord (m : List (String × List Nat)) (doc_id : Nat) (w : String) :
    List (String × List Nat) :=
  aset w (insertPosting doc_id ((alookup w m).getD [])) m

/-- `InvertedIndex.addDocument` (src/app.py lines 22-27): lowercase,
split, and add the id under every resulting token. -/
def InvertedIndex.addDocument (idx : InvertedIndex) (doc_id : Nat)
    (content : String) : InvertedIndex :=
  ⟨(pyTokens content).foldl (fun m w => addWord m doc_id w) idx.index⟩

/-- `InvertedIndex.search` (src/app.py lines 29-35): empty query gives the
empty set; otherwise seed with the first term's postings (copied) and
intersect with each remaining term's postings. -/
def InvertedIndex.search (idx : InvertedIndex) (search_words : List String) :
    List Nat :=
  match search_words with
  | [] => []
  | w :: ws =>
    ws.foldl (fun acc w2 => acc.filter (fun i => decide (i ∈ postingOf idx w2)))
      (postingOf idx w)

/-- `Dataset` (src/app.py lines 38-48): a document store plus its index. -/
structure Dataset where
  documents : List (Nat × Document)
  inverted_index : InvertedIndex
deriving Repr, DecidableEq

def Dataset.empty : Dataset := ⟨[], InvertedIndex.empty⟩

/-- `Dataset.addDocument`: store the document and index its (already
lowercased) content. -/
def Dataset.addDocument (ds : Dataset) (doc_id : Nat) (document : Document) :
    Dataset :=
  ⟨aset doc_id document ds.documents,
   ds.inverted_index.addDocument doc_id document.content⟩

/-- `Dataset.gte_document_by_id`: `self.documents[doc_id]`, `none`
standing for the `KeyError` case. -/
def Dataset.gte_document_by_id (ds : Dataset) (doc_id : Nat) : Option Document :=
  alookup doc_id ds.documents

/-- `SearchResult`: a wrapper around the matched document. -/
structure SearchResult where
  document : Document
deriving Repr, DecidableEq

/-- The error conditions the engine can raise. -/
inductive Err where
  | datasetNotFound (name : String)
  | documentNotFound
  | indexError
deriving Repr, DecidableEq

/-- The sort key of a result under `KeySortStrategy`:
`x.document.get_key_value(inp_key)`. -/
def keyVal (inp_key : String) (r : SearchResult) : String :=
  r.document.get_key_value inp_key

/-- Lexicographic ≤ on code-point sequences, exactly Python's `str`
comparison: compare code points position by position, a strict prefix
coming first. -/
def lexLe : List Char → List Char → Bool
  | [], _ => true
  | _ :: _, [] => false
  | c1 :: t1, c2 :: t2 =>
    if c1.toNat < c2.toNat then true
    else if c2.toNat < c1.toNat then false
    else lexLe t1 t2

/-- Python's `s1 <= s2` on strings. -/
def strLe (a b : String) : Bool := lexLe a.data b.data

/-- Stable insertion of a (later) element after every earlier element
whose key is ≤ its key. -/
def sInsert (inp_key : String) (x : SearchResult) :
    List SearchResult → List SearchResult
  | [] => [x]
  | y :: ys =>
    if strLe (keyVal inp_key x) (keyVal inp_key y) then x :: y :: ys
    else y :: sInsert inp_key x ys

/-- Python's stable `sorted(results, key=...)` as a stable insertion sort. -/
def pySortByKey (inp_key : String) : List SearchResult → List SearchResult
  | [] => []
  | x :: xs => sInsert inp_key x (pySortByKey inp_key xs)

/-- `KeySortStrategy.sort` as in src/app.py lines 62-64 (total). -/
def KeySortStrategy.sort (results : List SearchResult) (inp_key : String) :
    List SearchResult :=
  pySortByKey inp_key results

/-- `KeySortStrategy.sort` as in src/main.py lines 73-77: it prints
`results[0].document` before sorting, so an empty input raises
`IndexError`. -/
def KeySortStrategyMain.sort (results : List SearchResult) (inp_key : String) :
    Except Err (List SearchResult) :=
  match results with
  | [] => Except.error Err.indexError
  | _ :: _ => Except.ok (pySortByKey inp_key results)

/-- `SearchEngine` state (src/app.py lines 82-86): the dataset registry
and the process-wide id counter.  The `sort_strategy` field is constant
(`KeySortStrategy()`), so it is inlined at its single use site. -/
structure SearchEngine where
  datasets : List (String × Dataset)
  next_doc_id : Nat
deriving Repr, DecidableEq

/-- The freshly constructed engine: no datasets, counter at 1. -/
def SearchEngine.start : SearchEngine := ⟨[], 1⟩

/-- `SearchEngine.create_dataset` (src/app.py lines 88-91). -/
def SearchEngine.create_dataset (e : SearchEngine) (name : String) :
    SearchEngine :=
  match alookup name e.datasets with
  | some _ => e
  | none => ⟨aset name Dataset.empty e.datasets, e.next_doc_id⟩

/-- `SearchEngine.insert_document` (src/app.py lines 93-99). -/
def SearchEngine.insert_document (e : SearchEngine) (dataset_name : String)
    (content : String) (metaData : List (String × String)) :
    SearchEngine × Except Err Unit :=
  match alookup dataset_name e.datasets with
  | some ds =>
    (⟨aset dataset_name
        (ds.addDocument e.next_doc_id (Document.make e.next_doc_id content metaData))
        e.datasets,
      e.next_doc_id + 1⟩,
     Except.ok ())
  | none => (e, Except.error (Err.datasetNotFound dataset_name))

/-- The materialisation loop of `SearchEngine.search`: one `SearchResult`
per matching id, in the ids' iteration order. -/
def materialize (ds : Dataset) : List Nat → Except Err (List SearchResult)
  | [] => Except.ok []
  | i :: is =>
    match ds.gte_document_by_id i with
    | some d => (materialize ds is).map (fun rs => ⟨d⟩ :: rs)
    | none => Except.error Err.documentNotFound

/-- `SearchEngine.search` (src/app.py lines 101-114): tokenize the query,
intersect postings, materialise the results, and sort them when
`order_by_key` is truthy (present and non-empty). -/
def SearchEngine.search (e : SearchEngine) (dataset_name : String)
    (search_patterns : String) (order_by_key : Option String) :
    SearchEngine × Except Err (List SearchResult) :=
  match alookup dataset_name e.datasets with
  | none => (e, Except.error (Err.datasetNotFound dataset_name))
  | some dataset =>
    match materialize dataset
        (dataset.inverted_index.search (pyTokens search_patterns)) with
    | Except.error er => (e, Except.error er)
    | Except.ok results =>
      match order_by_key with
      | some k =>
        if k = "" then (e, Except.ok results)
        else (e, Except.ok (KeySortStrategy.sort results k))
      | none => (e, Except.ok results)

/-- `SearchEngine.search` as in src/main.py lines 119-138: identical
lookup, tokenisation and materialisation, but the sorting step is
commented out, so `order_by_key` is ignored. -/
def SearchEngine.searchMain (e : SearchEngine) (dataset_name : String)
    (search_patterns : String) (order_by_key : Option String) :
    SearchEngine × Except Err (List SearchResult) :=
  match alookup dataset_name e.datasets with
  | none => (e, Except.error (Err.datasetNotFound dataset_name))
  | some dataset =>
    match materialize dataset
        (dataset.inverted_index.search (pyTokens search_patterns)) with
    | Except.error er => (e, Except.error er)
    | Except.ok results => (e, Except.ok results)

/-- The three core operations a caller can issue against the engine. -/
inductive Op where
  | create (name : String)
  | insert (name : String) (content : String) (metaData : List (String × String))
  | query (name : String) (patterns : String) (key : Option String)
deriving Repr, DecidableEq

/-- The state transition of one operation (errors leave the state as the
operation returned it). -/
def SearchEngine.step (e : SearchEngine) : Op → SearchEngine
  | Op.create n => e.create_dataset n
  | Op.insert n c m => (e.insert_document n c m).1
  | Op.query n p k => (e.search n p k).1

/-- Run a sequence of operations from a given engine state. -/
def SearchEngine.run (e : SearchEngine) : List Op → SearchEngine
  | [] => e
  | op :: ops => SearchEngine.run (e.step op) ops

/-- The document ids handed out by the successful insertions of a trace,
in order. -/
def assignedIds (e : SearchEngine) : List Op → List Nat
  | [] => []
  | op :: ops =>
    match op with
    | Op.insert n c m =>
      match e.insert_document n c m with
      | (e2, Except.ok _) => e.next_doc_id :: assignedIds e2 ops
      | (e2, Except.error _) => assignedIds e2 ops
    | _ => assignedIds (e.step op) ops

/-- The documents/index synchronisation invariant of one dataset: an id is
in the posting set of `t` iff `t` tokenises out of that id's stored
content; every posted id is a stored document; no stored posting set is
empty. -/
def goodDataset (ds : Dataset) : Prop :=
  (∀ t i, i ∈ postingOf ds.inverted_index t ↔
    ∃ d, alookup i ds.documents = some d ∧ t ∈ pyTokens d.content)
  ∧ (∀ t i, i ∈ postingOf ds.inverted_index t → (alookup i ds.documents).isSome)
  ∧ (∀ t pl, (t, pl) ∈ ds.inverted_index.index → pl ≠ [])

/-- Every registered dataset satisfies `goodDataset`. -/
def engineInv (e : SearchEngine) : Prop :=
  ∀ n ds, alookup n e.datasets = some ds → goodDataset ds

/-- Every stored document id is below the allocator counter. -/
def freshIds (e : SearchEngine) : Prop :=
  ∀ n ds, alookup n e.datasets = some ds →
    ∀ i d, alookup i ds.documents = some d → i < e.next_doc_id

/-- Every stored document has lowercase-fixed content and carries the id
it is stored under. -/
def storedDocs (e : SearchEngine) : Prop :=
  ∀ n ds, alookup n e.datasets = some ds →
    ∀ i d, alookup i ds.documents = some d →
      pyLower d.content = d.content ∧ d.doc_id = i

/-- The full inductive invariant carried through traces. -/
def fullInv (e : SearchEngine) : Prop :=
  engineInv e ∧ freshIds e ∧ storedDocs e

/-- Boolean check that a result list is ascending on the given key. -/
def isSortedByKey (inp_key : String) : List SearchResult → Bool
  | [] => true
  | [_] => true
  | x :: y :: rest =>
    strLe (keyVal inp_key x) (keyVal inp_key y)
      && isSortedByKey inp_key (y :: rest)

/-- The spec's worked example: documents `{1: "a b", 2: "b c", 3: "a c"}`. -/
def exIdx : InvertedIndex :=
  ((InvertedIndex.empty.addDocument 1 "a b").addDocument 2 "b c").addDocument 3 "a c"

/-- A concrete engine with one dataset and two documents whose `date`
metadata is out of insertion order. -/
def exEngineDates : SearchEngine :=
  SearchEngine.run SearchEngine.start
    [Op.create "d", Op.insert "d" "x" [("date", "b")], Op.insert "d" "x" [("date", "a")]]

/-- A concrete engine holding the document `"Hello World"`. -/
def exEngineHello : SearchEngine :=
  SearchEngine.run SearchEngine.start [Op.create "d", Op.insert "d" "Hello World" []]

/-- A concrete engine holding the document `"a b"`. -/
def exEngineAB : SearchEngine :=
  SearchEngine.run SearchEngine.start [Op.create "d", Op.insert "d" "a b" []]

/-! ### Association-map and posting-set lemmas -/

theorem alookup_aset {α β : Type} [DecidableEq α] (k k2 : α) (v : β)
    (l : List (α × β)) :
    alookup k2 (aset k v l) = if k = k2 then some v else alookup k2 l := by
  induction l with
  | nil => simp [aset, alookup]
  | cons kv rest ih =>
    obtain ⟨k3, v3⟩ := kv
    by_cases h : k3 = k
    · subst h
      by_cases h2 : k3 = k2 <;> simp [aset, alookup, h2]
    · by_cases h2 : k3 = k2
      · subst h2
        simp only [aset, alookup, h, if_false, if_true, if_pos rfl]
        rw [if_neg (fun h3 => h h3.symm)]
      · simp [aset, alookup, h, h2, ih]

theorem mem_aset {α β : Type} [DecidableEq α] (k : α) (v : β)
    (l : List (α × β)) (x : α × β) :
    x ∈ aset k v l → x ∈ l ∨ x = (k, v) := by
  induction l with
  | nil => simp [aset]
  | cons kv rest ih =>
    obtain ⟨k3, v3⟩ := kv
    intro h2
    simp only [aset] at h2
    split at h2
    · rcases List.mem_cons.mp h2 with h3 | h3
      · exact Or.inr h3
      · exact Or.inl (List.mem_cons_of_mem _ h3)
    · rcases List.mem_cons.mp h2 with h3 | h3
      · exact Or.inl (h3 ▸ List.mem_cons_self _ _)
      · rcases ih h3 with h4 | h4
        · exact Or.inl (List.mem_cons_of_mem _ h4)
        · exact Or.inr h4

theorem mem_insertPosting (j : Nat) (l : List Nat) (i : Nat) :
    i ∈ insertPosting j l ↔ i = j ∨ i ∈ l := by
  induction l with
  | nil => simp [insertPosting]
  | cons x xs ih =>
    by_cases h1 : j < x
    · simp [insertPosting, h1]
    · by_cases h2 : j = x
      · subst h2
        simp [insertPosting, h1]
      · simp [insertPosting, h1, h2, ih]
        tauto

theorem insertPosting_ne_nil (j : Nat) (l : List Nat) :
    insertPosting j l ≠ [] := by
  cases l with
  | nil => simp [insertPosting]
  | cons x xs =>
    simp only [insertPosting]
    split
    · simp
    · split <;> simp

/-! ### Inverted-index lemmas -/

theorem mem_foldl_addWord (j : Nat) (t : String) (i : Nat) :
    ∀ (ws : List String) (m : List (String × List Nat)),
      i ∈ (alookup t (ws.foldl (fun m2 w => addWord m2 j w) m)).getD [] ↔
        i ∈ (alookup t m).getD [] ∨ (i = j ∧ t ∈ ws) := by
  intro ws
  induction ws with
  | nil => simp
  | cons w ws ih =>
    intro m
    rw [List.foldl_cons, ih]
    have h1 : alookup t (addWord m j w) =
        if w = t then some (insertPosting j ((alookup w m).getD []))
        else alookup t m := alookup_aset w t _ m
    by_cases hw : w = t
    · subst hw
      simp only [h1, if_true, Option.getD_some, mem_insertPosting, List.mem_cons]
      tauto
    · simp only [h1, hw, if_false, List.mem_cons]
      have : ¬ t = w := fun h => hw h.symm
      tauto

theorem mem_postingOf_addDocument (idx : InvertedIndex) (j : Nat) (c : String)
    (t : String) (i : Nat) :
    i ∈ postingOf (idx.addDocument j c) t ↔
      i ∈ postingOf idx t ∨ (i = j ∧ t ∈ pyTokens c) := by
  unfold InvertedIndex.addDocument postingOf
  exact mem_foldl_addWord j t i (pyTokens c) idx.index

theorem foldl_addWord_ne_nil (j : Nat) :
    ∀ (ws : List String) (m : List (String × List Nat)),
      (∀ t pl, (t, pl) ∈ m → pl ≠ []) →
      ∀ t pl, (t, pl) ∈ ws.foldl (fun m2 w => addWord m2 j w) m → pl ≠ [] := by
  intro ws
  induction ws with
  | nil => intro m h; exact h
  | cons w ws ih =>
    intro m h
    rw [List.foldl_cons]
    apply ih
    intro t pl hmem
    rcases mem_aset w _ m (t, pl) hmem with h2 | h2
    · exact h t pl h2
    · rw [Prod.mk.injEq] at h2
      rw [h2.2]
      exact insertPosting_ne_nil j _

theorem addDocument_entries_ne_nil (idx : InvertedIndex) (j : Nat) (c : String)
    (h : ∀ t pl, (t, pl) ∈ idx.index → pl ≠ []) :
    ∀ t pl, (t, pl) ∈ (idx.addDocument j c).index → pl ≠ [] :=
  foldl_addWord_ne_nil j (pyTokens c) idx.index h

theorem mem_filter_foldl (idx : InvertedIndex) (i : Nat) :
    ∀ (ws : List String) (acc : List Nat),
      i ∈ ws.foldl
          (fun acc2 w2 => acc2.filter (fun x => decide (x ∈ postingOf idx w2))) acc ↔
        i ∈ acc ∧ ∀ w ∈ ws, i ∈ postingOf idx w := by
  intro ws
  induction ws with
  | nil => simp
  | cons w ws ih =>
    intro acc
    rw [List.foldl_cons, ih]
    simp only [List.mem_filter, decide_eq_true_eq, List.mem_cons]
    constructor
    · rintro ⟨⟨h1, h2⟩, h3⟩
      refine ⟨h1, ?_⟩
      rintro w2 (rfl | hw2)
      · exact h2
      · exact h3 w2 hw2
    · rintro ⟨h1, h2⟩
      exact ⟨⟨h1, h2 w (Or.inl rfl)⟩, fun w2 hw2 => h2 w2 (Or.inr hw2)⟩

theorem mem_search_iff (idx : InvertedIndex) (ws : List String) (i : Nat) :
    i ∈ idx.search ws ↔ ws ≠ [] ∧ ∀ w ∈ ws, i ∈ postingOf idx w := by
  cases ws with
  | nil => simp [InvertedIndex.search]
  | cons w ws =>
    simp only [InvertedIndex.search, mem_filter_foldl, ne_eq, List.mem_cons,
      reduceCtorEq, not_false_eq_true, true_and]
    constructor
    · rintro ⟨h1, h2⟩
      rintro w2 (rfl | hw2)
      · exact h1
      · exact h2 w2 hw2
    · rintro h
      exact ⟨h w (Or.inl rfl), fun w2 hw2 => h w2 (Or.inr hw2)⟩

/-! ### Lowercasing is idempotent -/

theorem toNat_ofNat_valid {n : Nat} (h : n.isValidChar) :
    (Char.ofNat n).toNat = n := by
  rw [Char.ofNat, dif_pos h]
  rfl

theorem toLower_toLower (c : Char) :
    Char.toLower (Char.toLower c) = Char.toLower c := by
  unfold Char.toLower
  by_cases h : c.toNat ≥ 65 ∧ c.toNat ≤ 90
  · rw [if_pos h]
    have hv : (Char.ofNat (c.toNat + 32)).toNat = c.toNat + 32 :=
      toNat_ofNat_valid (Or.inl (by omega))
    rw [hv, if_neg (by omega)]
  · rw [if_neg h, if_neg h]

theorem pyLower_pyLower (s : String) : pyLower (pyLower s) = pyLower s := by
  unfold pyLower
  congr 1
  rw [List.map_map]
  exact List.map_congr_left (fun c _ => toLower_toLower c)

theorem pyTokens_pyLower (s : String) : pyTokens (pyLower s) = pyTokens s := by
  unfold pyTokens
  rw [pyLower_pyLower]

/-! ### The codepoint-lexicographic order -/

theorem lexLe_total (a b : List Char) : lexLe a b = true ∨ lexLe b a = true := by
  induction a generalizing b with
  | nil => left; rfl
  | cons c1 t1 ih =>
    cases b with
    | nil => right; rfl
    | cons c2 t2 =>
      by_cases h1 : c1.toNat < c2.toNat
      · left
        simp [lexLe, h1]
      · by_cases h2 : c2.toNat < c1.toNat
        · right
          simp [lexLe, h2]
        · rcases ih t2 with h | h
          · left
            simp [lexLe, h1, h2, h]
          · right
            simp [lexLe, h1, h2, h]

theorem lexLe_trans {a b c : List Char} :
    lexLe a b = true → lexLe b c = true → lexLe a c = true := by
  induction a generalizing b c with
  | nil => intro _ _; rfl
  | cons c1 t1 ih =>
    cases b with
    | nil => intro h; exact absurd h (by simp [lexLe])
    | cons c2 t2 =>
      cases c with
      | nil =>
        intro _ h
        exact absurd h (by simp [lexLe])
      | cons c3 t3 =>
        intro h1 h2
        simp only [lexLe] at h1 h2 ⊢
        split at h1
        · rename_i hlt12
          split at h2
          · rename_i hlt23
            rw [if_pos (Nat.lt_trans hlt12 hlt23)]
          · split at h2
            · exact absurd h2 (by simp)
            · rename_i hn23 hn32
              have he : c2.toNat = c3.toNat := Nat.le_antisymm
                (Nat.le_of_not_lt hn32) (Nat.le_of_not_lt hn23)
              rw [if_pos (he ▸ hlt12)]
        · split at h1
          · exact absurd h1 (by simp)
          · rename_i hn12 hn21
            have he : c1.toNat = c2.toNat := Nat.le_antisymm
              (Nat.le_of_not_lt hn21) (Nat.le_of_not_lt hn12)
            split at h2
            · rename_i hlt23
              rw [if_pos (he ▸ hlt23)]
            · split at h2
              · exact absurd h2 (by simp)
              · rename_i hn23 hn32
                rw [if_neg (he ▸ hn23), if_neg (he ▸ hn32)]
                exact ih h1 h2

theorem strLe_total (a b : String) : strLe a b = true ∨ strLe b a = true :=
  lexLe_total a.data b.data

theorem strLe_trans {a b c : String} :
    strLe a b = true → strLe b c = true → strLe a c = true :=
  lexLe_trans

theorem lexLe_refl (a : List Char) : lexLe a a = true := by
  induction a with
  | nil => rfl
  | cons c t ih => simp [lexLe, ih]

theorem strLe_refl (a : String) : strLe a a = true :=
  lexLe_refl a.data

/-! ### The stable key sort -/

theorem mem_sInsert (k : String) (x : SearchResult) (l : List SearchResult)
    (z : SearchResult) :
    z ∈ sInsert k x l ↔ z = x ∨ z ∈ l := by
  induction l with
  | nil => simp [sInsert]
  | cons y ys ih =>
    by_cases h : strLe (keyVal k x) (keyVal k y) = true
    · simp only [sInsert, h, if_true, List.mem_cons]
    · have he : sInsert k x (y :: ys) = y :: sInsert k x ys := by
        simp only [sInsert]
        rw [if_neg h]
      rw [he]
      simp only [List.mem_cons, ih]
      tauto

theorem pairwise_sInsert (k : String) (x : SearchResult) (l : List SearchResult)
    (h : List.Pairwise (fun a b => strLe (keyVal k a) (keyVal k b) = true) l) :
    List.Pairwise (fun a b => strLe (keyVal k a) (keyVal k b) = true)
      (sInsert k x l) := by
  induction l with
  | nil => simp [sInsert]
  | cons y ys ih =>
    rcases List.pairwise_cons.mp h with ⟨hy, hys⟩
    by_cases hc : strLe (keyVal k x) (keyVal k y) = true
    · simp only [sInsert, hc, if_true]
      refine List.pairwise_cons.mpr ⟨?_, h⟩
      intro z hz
      rcases List.mem_cons.mp hz with rfl | hz2
      · exact hc
      · exact strLe_trans hc (hy z hz2)
    · simp only [sInsert, hc, if_false]
      refine List.pairwise_cons.mpr ⟨?_, ih hys⟩
      intro z hz
      rcases (mem_sInsert k x ys z).mp hz with rfl | hz2
      · rcases strLe_total (keyVal k z) (keyVal k y) with h2 | h2
        · exact absurd h2 hc
        · exact h2
      · exact hy z hz2

theorem pairwise_pySortByKey (k : String) (l : List SearchResult) :
    List.Pairwise (fun a b => strLe (keyVal k a) (keyVal k b) = true)
      (pySortByKey k l) := by
  induction l with
  | nil => simp [pySortByKey]
  | cons x xs ih => exact pairwise_sInsert k x _ ih

theorem perm_sInsert (k : String) (x : SearchResult) (l : List SearchResult) :
    List.Perm (sInsert k x l) (x :: l) := by
  induction l with
  | nil => simp [sInsert]
  | cons y ys ih =>
    by_cases h : strLe (keyVal k x) (keyVal k y) = true
    · simp [sInsert, h]
    · simp only [sInsert, h, if_false]
      exact (ih.cons y).trans (List.Perm.swap x y ys)

theorem perm_pySortByKey (k : String) (l : List SearchResult) :
    List.Perm (pySortByKey k l) l := by
  induction l with
  | nil => simp [pySortByKey]
  | cons x xs ih =>
    exact (perm_sInsert k x (pySortByKey k xs)).trans (ih.cons x)

theorem filter_sInsert (k v : String) (x : SearchResult) (l : List SearchResult) :
    (sInsert k x l).filter (fun r => decide (keyVal k r = v)) =
      if keyVal k x = v then
        x :: l.filter (fun r => decide (keyVal k r = v))
      else l.filter (fun r => decide (keyVal k r = v)) := by
  induction l with
  | nil =>
    by_cases h : keyVal k x = v <;> simp [sInsert, List.filter, h]
  | cons y ys ih =>
    by_cases hc : strLe (keyVal k x) (keyVal k y) = true
    · simp only [sInsert, hc, if_true]
      by_cases h : keyVal k x = v <;> simp [List.filter, h]
    · simp only [sInsert, hc, if_false]
      by_cases h : keyVal k x = v
      · have hy : ¬ keyVal k y = v := by
          intro h2
          refine hc ?_
          rw [h, h2]
          exact strLe_refl v
        simp [List.filter, h, hy, ih]
      · by_cases hy : keyVal k y = v <;> simp [List.filter, h, hy, ih]

theorem filter_pySortByKey (k v : String) (l : List SearchResult) :
    (pySortByKey k l).filter (fun r => decide (keyVal k r = v)) =
      l.filter (fun r => decide (keyVal k r = v)) := by
  induction l with
  | nil => rfl
  | cons x xs ih =>
    rw [pySortByKey, filter_sInsert]
    by_cases h : keyVal k x = v
    · rw [if_pos h, ih]
      simp [List.filter_cons, h]
    · rw [if_neg h, ih]
      simp [List.filter_cons, h]

/-! ### Engine-level unfolding and frame lemmas -/

theorem create_dataset_of_lookup_none {e : SearchEngine} {n : String}
    (h : alookup n e.datasets = none) :
    e.create_dataset n = ⟨aset n Dataset.empty e.datasets, e.next_doc_id⟩ := by
  unfold SearchEngine.create_dataset
  rw [h]

theorem create_dataset_of_lookup_some {e : SearchEngine} {n : String}
    {ds : Dataset} (h : alookup n e.datasets = some ds) :
    e.create_dataset n = e := by
  unfold SearchEngine.create_dataset
  rw [h]

theorem create_dataset_next (e : SearchEngine) (n : String) :
    (e.create_dataset n).next_doc_id = e.next_doc_id := by
  unfold SearchEngine.create_dataset
  cases alookup n e.datasets <;> rfl

theorem insert_document_of_lookup_none {e : SearchEngine} {n : String}
    (c : String) (m : List (String × String)) (h : alookup n e.datasets = none) :
    e.insert_document n c m = (e, Except.error (Err.datasetNotFound n)) := by
  unfold SearchEngine.insert_document
  rw [h]

theorem insert_document_of_lookup_some {e : SearchEngine} {n : String}
    {ds : Dataset} (c : String) (m : List (String × String))
    (h : alookup n e.datasets = some ds) :
    e.insert_document n c m =
      (⟨aset n (ds.addDocument e.next_doc_id (Document.make e.next_doc_id c m))
          e.datasets,
        e.next_doc_id + 1⟩,
       Except.ok ()) := by
  unfold SearchEngine.insert_document
  rw [h]

theorem search_of_lookup_none {e : SearchEngine} {n : String}
    (q : String) (k : Option String) (h : alookup n e.datasets = none) :
    e.search n q k = (e, Except.error (Err.datasetNotFound n)) := by
  unfold SearchEngine.search
  rw [h]

theorem search_fst (e : SearchEngine) (n q : String) (k : Option String) :
    (e.search n q k).1 = e := by
  unfold SearchEngine.search
  cases alookup n e.datasets with
  | none => rfl
  | some ds =>
    simp only
    cases materialize ds (ds.inverted_index.search (pyTokens q)) with
    | error er => rfl
    | ok results =>
      cases k with
      | none => rfl
      | some key =>
        simp only
        split <;> rfl

theorem searchMain_fst (e : SearchEngine) (n q : String) (k : Option String) :
    (e.searchMain n q k).1 = e := by
  unfold SearchEngine.searchMain
  cases alookup n e.datasets with
  | none => rfl
  | some ds =>
    simp only
    cases materialize ds (ds.inverted_index.search (pyTokens q)) with
    | error er => rfl
    | ok results => rfl

/-! ### Preservation of the dataset invariant -/

theorem goodDataset_empty : goodDataset Dataset.empty := by
  refine ⟨?_, ?_, ?_⟩ <;>
    simp [Dataset.empty, InvertedIndex.empty, postingOf, alookup]

theorem goodDataset_addDocument {ds : Dataset} (hds : goodDataset ds)
    (j : Nat) (d : Document) (hj : alookup j ds.documents = none) :
    goodDataset (ds.addDocument j d) := by
  obtain ⟨hiff, _, hne⟩ := hds
  have hdociff : ∀ t i,
      i ∈ postingOf (ds.addDocument j d).inverted_index t ↔
        ∃ d2, alookup i (ds.addDocument j d).documents = some d2 ∧
          t ∈ pyTokens d2.content := by
    intro t i
    show i ∈ postingOf (ds.inverted_index.addDocument j d.content) t ↔ _
    rw [mem_postingOf_addDocument, hiff]
    show _ ↔ ∃ d2, alookup i (aset j d ds.documents) = some d2 ∧ _
    by_cases hij : j = i
    · subst hij
      constructor
      · rintro (⟨d2, hd2, _⟩ | ⟨_, ht⟩)
        · rw [hj] at hd2
          exact absurd hd2 (by simp)
        · refine ⟨d, ?_, ht⟩
          rw [alookup_aset, if_pos rfl]
      · rintro ⟨d2, hd2, ht⟩
        rw [alookup_aset, if_pos rfl] at hd2
        cases hd2
        exact Or.inr ⟨rfl, ht⟩
    · constructor
      · rintro (⟨d2, hd2, ht⟩ | ⟨rfl, _⟩)
        · refine ⟨d2, ?_, ht⟩
          rw [alookup_aset, if_neg hij]
          exact hd2
        · exact absurd rfl hij
      · rintro ⟨d2, hd2, ht⟩
        rw [alookup_aset, if_neg hij] at hd2
        exact Or.inl ⟨d2, hd2, ht⟩
  refine ⟨hdociff, ?_, ?_⟩
  · intro t i hi
    rcases (hdociff t i).mp hi with ⟨d2, hd2, _⟩
    rw [hd2]
    rfl
  · exact addDocument_entries_ne_nil ds.inverted_index j d.content hne

theorem fullInv_step (e : SearchEngine) (op : Op) (h : fullInv e) :
    fullInv (e.step op) := by
  obtain ⟨hinv, hfresh, hdocs⟩ := h
  cases op with
  | query n p k =>
    show fullInv (e.search n p k).1
    rw [search_fst]
    exact ⟨hinv, hfresh, hdocs⟩
  | create n =>
    show fullInv (e.create_dataset n)
    cases hd : alookup n e.datasets with
    | some ds =>
      rw [create_dataset_of_lookup_some hd]
      exact ⟨hinv, hfresh, hdocs⟩
    | none =>
      rw [create_dataset_of_lookup_none hd]
      refine ⟨?_, ?_, ?_⟩
      · intro n2 ds2 h2
        rw [alookup_aset] at h2
        split at h2
        · cases h2
          exact goodDataset_empty
        · exact hinv n2 ds2 h2
      · intro n2 ds2 h2 i d hid
        rw [alookup_aset] at h2
        split at h2
        · cases h2
          exact absurd hid (by simp [Dataset.empty, alookup])
        · exact hfresh n2 ds2 h2 i d hid
      · intro n2 ds2 h2 i d hid
        rw [alookup_aset] at h2
        split at h2
        · cases h2
          exact absurd hid (by simp [Dataset.empty, alookup])
        · exact hdocs n2 ds2 h2 i d hid
  | insert n c m =>
    show fullInv (e.insert_document n c m).1
    cases hd : alookup n e.datasets with
    | none =>
      rw [insert_document_of_lookup_none c m hd]
      exact ⟨hinv, hfresh, hdocs⟩
    | some ds =>
      rw [insert_document_of_lookup_some c m hd]
      have hj : alookup e.next_doc_id ds.documents = none := by
        cases hl : alookup e.next_doc_id ds.documents with
        | none => rfl
        | some d =>
          exact absurd (hfresh n ds hd e.next_doc_id d hl) (Nat.lt_irrefl _)
      refine ⟨?_, ?_, ?_⟩
      · intro n2 ds2 h2
        rw [alookup_aset] at h2
        split at h2
        · cases h2
          exact goodDataset_addDocument (hinv n ds hd) e.next_doc_id _ hj
        · exact hinv n2 ds2 h2
      · intro n2 ds2 h2 i d hid
        rw [alookup_aset] at h2
        split at h2
        · cases h2
          change alookup i (aset e.next_doc_id _ ds.documents) = some d at hid
          rw [alookup_aset] at hid
          split at hid
          · rename_i hji
            rw [← hji]
            exact Nat.lt_succ_self _
          · exact Nat.lt_succ_of_lt (hfresh n ds hd i d hid)
        · exact Nat.lt_succ_of_lt (hfresh n2 ds2 h2 i d hid)
      · intro n2 ds2 h2 i d hid
        rw [alookup_aset] at h2
        split at h2
        · cases h2
          change alookup i (aset e.next_doc_id _ ds.documents) = some d at hid
          rw [alookup_aset] at hid
          split at hid
          · rename_i hji
            cases hid
            exact ⟨pyLower_pyLower c, hji⟩
          · exact hdocs n ds hd i d hid
        · exact hdocs n2 ds2 h2 i d hid

theorem fullInv_start : fullInv SearchEngine.start := by
  refine ⟨?_, ?_, ?_⟩ <;> intro n ds h <;>
    exact absurd h (by simp [SearchEngine.start, alookup])

theorem fullInv_run (ops : List Op) :
    ∀ e : SearchEngine, fullInv e → fullInv (e.run ops) := by
  induction ops with
  | nil => intro e h; exact h
  | cons op ops ih =>
    intro e h
    exact ih (e.step op) (fullInv_step e op h)

theorem aset_eq_append {α β : Type} [DecidableEq α] {k : α} (v : β)
    {l : List (α × β)} (h : alookup k l = none) : aset k v l = l ++ [(k, v)] := by
  induction l with
  | nil => rfl
  | cons kv rest ih =>
    obtain ⟨k2, v2⟩ := kv
    simp only [alookup] at h
    split at h
    · exact absurd h (by simp)
    · rename_i hne
      simp only [aset, hne, if_false, List.cons_append]
      rw [ih h]

theorem search_some_key_eq {e : SearchEngine} {n q k : String}
    {l l0 : List SearchResult} (hk : ¬ k = "")
    (h1 : (e.search n q (some k)).2 = Except.ok l)
    (h2 : (e.search n q none).2 = Except.ok l0) :
    l = pySortByKey k l0 := by
  unfold SearchEngine.search at h1 h2
  cases hd : alookup n e.datasets with
  | none =>
    rw [hd] at h1
    exact absurd h1 (by simp)
  | some ds =>
    rw [hd] at h1 h2
    simp only at h1 h2
    cases hm : materialize ds (ds.inverted_index.search (pyTokens q)) with
    | error er =>
      rw [hm] at h1
      exact absurd h1 (by simp)
    | ok results =>
      rw [hm] at h1 h2
      simp only [if_neg hk, Except.ok.injEq] at h1 h2
      rw [← h1, ← h2]
      rfl

theorem search_mem_of_inv {e : SearchEngine} (hfull : fullInv e)
    {n : String} {ds : Dataset} (hd : alookup n e.datasets = some ds)
    {i : Nat} {d : Document} (hid : alookup i ds.documents = some d) (q : String) :
    i ∈ ds.inverted_index.search (pyTokens q) ↔
      (pyTokens q ≠ [] ∧ ∀ t ∈ pyTokens q, t ∈ pySplit d.content) := by
  obtain ⟨hinv, _, hdocs⟩ := hfull
  obtain ⟨hiff, _, _⟩ := hinv n ds hd
  have hlow : pyLower d.content = d.content := (hdocs n ds hd i d hid).1
  have hpost : ∀ t, i ∈ postingOf ds.inverted_index t ↔ t ∈ pySplit d.content := by
    intro t
    rw [hiff]
    constructor
    · rintro ⟨d2, hd2, ht⟩
      rw [hid] at hd2
      cases hd2
      rw [pyTokens, hlow] at ht
      exact ht
    · intro ht
      refine ⟨d, hid, ?_⟩
      rw [pyTokens, hlow]
      exact ht
  rw [mem_search_iff]
  simp only [hpost]

/-! ### Id allocation along traces -/

theorem assignedIds_cons_create (e : SearchEngine) (n : String) (ops : List Op) :
    assignedIds e (Op.create n :: ops) = assignedIds (e.create_dataset n) ops :=
  rfl

theorem assignedIds_cons_query (e : SearchEngine) (n p : String)
    (k : Option String) (ops : List Op) :
    assignedIds e (Op.query n p k :: ops) =
      assignedIds (e.search n p k).1 ops :=
  rfl

theorem assignedIds_cons_insert_none (e : SearchEngine) (n c : String)
    (m : List (String × String)) (ops : List Op)
    (hd : alookup n e.datasets = none) :
    assignedIds e (Op.insert n c m :: ops) = assignedIds e ops := by
  show (match e.insert_document n c m with
    | (e2, Except.ok _) => e.next_doc_id :: assignedIds e2 ops
    | (e2, Except.error _) => assignedIds e2 ops) = _
  rw [insert_document_of_lookup_none c m hd]

theorem assignedIds_cons_insert_some (e : SearchEngine) (n c : String)
    (m : List (String × String)) (ops : List Op) (ds : Dataset)
    (hd : alookup n e.datasets = some ds) :
    assignedIds e (Op.insert n c m :: ops) =
      e.next_doc_id :: assignedIds (e.insert_document n c m).1 ops := by
  show (match e.insert_document n c m with
    | (e2, Except.ok _) => e.next_doc_id :: assignedIds e2 ops
    | (e2, Except.error _) => assignedIds e2 ops) = _
  rw [insert_document_of_lookup_some c m hd]

theorem assignedIds_eq (ops : List Op) :
    ∀ e : SearchEngine,
      assignedIds e ops = List.range' e.next_doc_id (assignedIds e ops).length := by
  induction ops with
  | nil => intro e; rfl
  | cons op ops ih =>
    intro e
    cases op with
    | create n =>
      rw [assignedIds_cons_create, ih (e.create_dataset n), create_dataset_next,
        List.length_range']
    | query n p k =>
      rw [assignedIds_cons_query, search_fst, ih e, List.length_range']
    | insert n c m =>
      cases hd : alookup n e.datasets with
      | none =>
        rw [assignedIds_cons_insert_none e n c m ops hd]
        exact ih e
      | some ds =>
        rw [assignedIds_cons_insert_some e n c m ops ds hd, List.length_cons,
          List.range'_succ, insert_document_of_lookup_some c m hd]
        congr 1
        exact ih _

/-! ### The claims -/

/-- Claim C1: `InvertedIndex.search`, given a list of already-lowercased
terms, returns exactly the intersection of the posting sets of every term
(the empty set standing in for an unindexed term), and the empty set for
an empty term list; on the dataset `{1: "a b", 2: "b c", 3: "a c"}`,
searching `"a b"`, `"b"`, `"a c"` and `""` returns `{1}`, `{1,2}`, `{3}`
and `{}` respectively. -/
theorem c1 :
    (∀ (idx : InvertedIndex) (terms : List String) (i : Nat),
        i ∈ idx.search terms ↔ terms ≠ [] ∧ ∀ t ∈ terms, i ∈ postingOf idx t) ∧
    exIdx.search (pyTokens "a b") = [1] ∧
    exIdx.search (pyTokens "b") = [1, 2] ∧
    exIdx.search (pyTokens "a c") = [3] ∧
    exIdx.search (pyTokens "") = [] :=
  ⟨mem_search_iff, rfl, rfl, rfl, rfl⟩

/-- Claim C2, counterexample: `SearchEngine.search` as written in
src/main.py, called on a registered dataset with the non-empty
`order_by_key` `"date"`, returns a result list that is not sorted by that
key (the sorting step is commented out there). -/
theorem c2_counterexample :
    (exEngineDates.searchMain "d" "x" (some "date")).2.toOption.map
        (isSortedByKey "date") = some false :=
  rfl

/-- Claim C2 (amended to src/app.py's `SearchEngine.search`, the variant
that performs the sort): whenever it is called with a supplied non-empty
`order_by_key` and returns a result list, that list is sorted ascending
by the string value of each result document's metadata at that key (empty
string when absent) under codepoint-lexicographic ordering, is a
permutation of the pre-sort materialisation (what the same call without
`order_by_key` returns), and ties preserve the pre-sort relative order. -/
theorem c2 (e : SearchEngine) (n q k : String) (l l0 : List SearchResult)
    (hk : ¬ k = "")
    (h1 : (e.search n q (some k)).2 = Except.ok l)
    (h2 : (e.search n q none).2 = Except.ok l0) :
    List.Pairwise (fun a b => strLe (keyVal k a) (keyVal k b) = true) l ∧
    List.Perm l l0 ∧
    ∀ v, l.filter (fun r => decide (keyVal k r = v)) =
        l0.filter (fun r => decide (keyVal k r = v)) := by
  have he : l = pySortByKey k l0 := search_some_key_eq hk h1 h2
  subst he
  exact ⟨pairwise_pySortByKey k l0, perm_pySortByKey k l0,
    fun v => filter_pySortByKey k v l0⟩

/-- Claim C2, witness: the amended claim instantiated on the concrete
two-document engine. -/
theorem c2_witness :
    List.Pairwise (fun a b => strLe (keyVal "date" a) (keyVal "date" b) = true)
        [⟨⟨2, "x", [("date", "a")]⟩⟩, ⟨⟨1, "x", [("date", "b")]⟩⟩] ∧
    List.Perm
        ([⟨⟨2, "x", [("date", "a")]⟩⟩, ⟨⟨1, "x", [("date", "b")]⟩⟩] :
          List SearchResult)
        [⟨⟨1, "x", [("date", "b")]⟩⟩, ⟨⟨2, "x", [("date", "a")]⟩⟩] ∧
    List.filter (fun r => decide (keyVal "date" r = "a"))
          ([⟨⟨2, "x", [("date", "a")]⟩⟩, ⟨⟨1, "x", [("date", "b")]⟩⟩] :
            List SearchResult) =
        List.filter (fun r => decide (keyVal "date" r = "a"))
          [⟨⟨1, "x", [("date", "b")]⟩⟩, ⟨⟨2, "x", [("date", "a")]⟩⟩] :=
  (fun h => ⟨h.1, h.2.1, h.2.2 "a"⟩)
    (c2 exEngineDates "d" "x" "date"
      [⟨⟨2, "x", [("date", "a")]⟩⟩, ⟨⟨1, "x", [("date", "b")]⟩⟩]
      [⟨⟨1, "x", [("date", "b")]⟩⟩, ⟨⟨2, "x", [("date", "a")]⟩⟩]
      (by decide) rfl rfl)

/-- Claim C3: against an unregistered dataset name, `insert_document` and
`search` both fail with `DatasetNotFound` and return the engine state
completely unchanged. -/
theorem c3 (e : SearchEngine) (name c q : String) (m : List (String × String))
    (k : Option String) (h : alookup name e.datasets = none) :
    e.insert_document name c m = (e, Except.error (Err.datasetNotFound name)) ∧
    e.search name q k = (e, Except.error (Err.datasetNotFound name)) :=
  ⟨insert_document_of_lookup_none c m h, search_of_lookup_none q k h⟩

/-- Claim C3, witness: both failures on the fresh engine and the name
`"x"`. -/
theorem c3_witness :
    SearchEngine.start.insert_document "x" "c" [] =
        (SearchEngine.start, Except.error (Err.datasetNotFound "x")) ∧
    SearchEngine.start.search "x" "q" none =
        (SearchEngine.start, Except.error (Err.datasetNotFound "x")) :=
  c3 SearchEngine.start "x" "c" "q" [] none rfl

/-- Claim C4: after any sequence of create/insert/search operations from
the fresh engine, every registered dataset satisfies the invariant: an id
is in the posting set of term `t` iff `t` occurs as a lowercase
whitespace-delimited token of that id's stored content, every posted id
is a stored document, and no stored term maps to an empty posting set. -/
theorem c4 (ops : List Op) (n : String) (ds : Dataset)
    (h : alookup n (SearchEngine.run SearchEngine.start ops).datasets = some ds) :
    goodDataset ds :=
  (fullInv_run ops SearchEngine.start fullInv_start).1 n ds h

/-- Claim C4, witness: the invariant for the dataset registered by a
one-operation trace. -/
theorem c4_witness : goodDataset Dataset.empty :=
  c4 [Op.create "d"] "d" Dataset.empty rfl

/-- Claim C5: across any operation sequence on one engine, the document
ids assigned by the successful insertions are exactly `1, 2, 3, ...` in
order — unique, strictly increasing, gap-free, starting at 1. -/
theorem c5 (ops : List Op) :
    assignedIds SearchEngine.start ops =
      List.range' 1 (assignedIds SearchEngine.start ops).length :=
  assignedIds_eq ops SearchEngine.start

/-- Claim C6, counterexample: with the document `"a b"` stored in dataset
`"d"`, the empty query has no tokens, so every one of its tokens occurs
among the content's tokens vacuously, yet the search returns no results —
the claimed biconditional fails for token-less queries. -/
theorem c6_counterexample :
    (pyTokens "").all (fun t => decide (t ∈ pySplit (pyLower "a b"))) = true ∧
    (alookup "d" exEngineAB.datasets).map
        (fun ds => (alookup 1 ds.documents).isSome) = some true ∧
    (exEngineAB.search "d" "" none).2 = Except.ok [] :=
  ⟨rfl, rfl, rfl⟩

/-- Claim C6 (amended: the query must have at least one token): search is
case-insensitive — in any reachable engine, a stored document matches a
query iff the lowercased query's token list is non-empty and each of its
tokens occurs among the (lowercased) stored content's whitespace-delimited
tokens; and inserting `"Hello World"` then searching `"hello"` returns
that document. -/
theorem c6 :
    (∀ (ops : List Op) (n : String) (ds : Dataset) (i : Nat) (d : Document)
        (q : String),
        alookup n (SearchEngine.run SearchEngine.start ops).datasets = some ds →
        alookup i ds.documents = some d →
        (i ∈ ds.inverted_index.search (pyTokens q) ↔
          (pyTokens q ≠ [] ∧ ∀ t ∈ pyTokens q, t ∈ pySplit d.content))) ∧
    (exEngineHello.search "d" "hello" none).2 =
      Except.ok [⟨⟨1, "hello world", []⟩⟩] := by
  constructor
  · intro ops n ds i d q hd hid
    exact search_mem_of_inv (fullInv_run ops SearchEngine.start fullInv_start)
      hd hid q
  · rfl

/-- Claim C6, witness: the amended biconditional instantiated on the
concrete engine holding `"a b"` and the query `"a"`. -/
theorem c6_witness :
    1 ∈ (⟨[(1, ⟨1, "a b", []⟩)],
          ⟨[("a", [1]), ("b", [1])]⟩⟩ : Dataset).inverted_index.search
        (pyTokens "a") :=
  (c6.1 [Op.create "d", Op.insert "d" "a b" []] "d"
    ⟨[(1, ⟨1, "a b", []⟩)], ⟨[("a", [1]), ("b", [1])]⟩⟩ 1 ⟨1, "a b", []⟩ "a"
    rfl rfl).mpr (by decide)

/-- Claim C7: `InvertedIndex.addDocument` never removes stale postings:
after adding id `i` with content `c1` and re-adding it with content `c2`,
`i` is still posted under every token of `c1` as well as every token of
`c2`. -/
theorem c7 (idx : InvertedIndex) (i : Nat) (c1 c2 t : String)
    (h : t ∈ pyTokens c1 ∨ t ∈ pyTokens c2) :
    i ∈ postingOf ((idx.addDocument i c1).addDocument i c2) t := by
  rw [mem_postingOf_addDocument, mem_postingOf_addDocument]
  rcases h with h | h
  · exact Or.inl (Or.inr ⟨rfl, h⟩)
  · exact Or.inr ⟨rfl, h⟩

/-- Claim C7, witness: id 1 added with `"a"` then re-added with `"b"` is
still posted under the stale token `"a"`. -/
theorem c7_witness :
    1 ∈ postingOf ((InvertedIndex.empty.addDocument 1 "a").addDocument 1 "b") "a" :=
  c7 InvertedIndex.empty 1 "a" "b" "a" (Or.inl (by decide))

/-- Claim C8: `create_dataset` is idempotent and non-destructive: for an
unregistered name it appends exactly one empty dataset (and touches
nothing else, in particular not the id counter); for a registered name it
is a no-op; creating `"x"` twice leaves exactly one empty dataset named
`"x"`. -/
theorem c8 :
    (∀ (e : SearchEngine) (name : String),
        alookup name e.datasets = none →
        (e.create_dataset name).datasets = e.datasets ++ [(name, Dataset.empty)] ∧
        (e.create_dataset name).next_doc_id = e.next_doc_id) ∧
    (∀ (e : SearchEngine) (name : String) (ds : Dataset),
        alookup name e.datasets = some ds → e.create_dataset name = e) ∧
    ((SearchEngine.start.create_dataset "x").create_dataset "x").datasets =
      [("x", Dataset.empty)] := by
  refine ⟨?_, ?_, rfl⟩
  · intro e name h
    rw [create_dataset_of_lookup_none h]
    exact ⟨aset_eq_append Dataset.empty h, rfl⟩
  · intro e name ds h
    exact create_dataset_of_lookup_some h

/-- Claim C8, witness: both branches instantiated at the fresh engine and
the name `"x"`. -/
theorem c8_witness :
    ((SearchEngine.start.create_dataset "x").datasets =
        SearchEngine.start.datasets ++ [("x", Dataset.empty)] ∧
      (SearchEngine.start.create_dataset "x").next_doc_id =
        SearchEngine.start.next_doc_id) ∧
    (SearchEngine.start.create_dataset "x").create_dataset "x" =
      SearchEngine.start.create_dataset "x" :=
  ⟨c8.1 SearchEngine.start "x" rfl,
   c8.2.1 (SearchEngine.start.create_dataset "x") "x" Dataset.empty rfl⟩

/-- Claim C9: `KeySortStrategy.sort` as written in src/main.py reads
`results[0]` before sorting, so on an empty result list it raises
`IndexError` for every key instead of returning an empty list. -/
theorem c9 (inp_key : String) :
    KeySortStrategyMain.sort [] inp_key = Except.error Err.indexError :=
  rfl

/-- Claim C10: `SearchEngine.search` on a registered dataset never
mutates engine state: the engine returned alongside the results is the
very engine that was passed in (registry, document stores, posting sets
and the id counter included). -/
theorem c10 (e : SearchEngine) (n q : String) (k : Option String)
    (h : (alookup n e.datasets).isSome = true) :
    (e.search n q k).1 = e :=
  search_fst e n q k

/-- Claim C10, witness: a search on the concrete one-document engine
returns it unchanged. -/
theorem c10_witness : (exEngineAB.search "d" "a" none).1 = exEngineAB :=
  c10 exEngineAB "d" "a" none rfl

end SearchSpec
